import Mathlib

/-!
Verification of the beam-analysis core (`src/civil/beam_analysis.py`).

The Python module is shallowly embedded over ℚ: machine floats become exact
rationals, numpy arrays over the uniform grid become functions `ℕ → ℚ` from
sample index to value, the pandas result table becomes a `List Sample`, and
each `raise AnalysisError` site becomes a distinct constructor of
`AnalysisError` returned through `Except`.
-/

namespace BeamAnalysis

/-- Support kinds: the `'pinned'`, `'roller'`, `'fixed'` strings of the code. -/
inductive SupportType where
  | pinned
  | roller
  | fixed
deriving DecidableEq, Repr

/-- One entry of the `supports` list: a `{'type': ..., 'position': ...}` dict. -/
structure Support where
  type : SupportType
  position : ℚ
deriving DecidableEq, Repr

/-- One entry of the `loads` list: either a point load dict
`{'type': 'point', 'magnitude': m, 'position': p}` or a distributed load dict
`{'type': 'distributed', 'magnitude': m, 'start': s, 'end': e}`. -/
inductive Load where
  | point (magnitude position : ℚ)
  | distributed (magnitude startPos endPos : ℚ)
deriving DecidableEq, Repr

/-- A value stored in the `properties` mapping: either a number or something
`float()` rejects (a non-numeric string, `None`, ...). -/
inductive PropValue where
  | num (val : ℚ)
  | nonNumeric
deriving DecidableEq, Repr

/-- The `properties` dict handed to `solve_beam`; `none` models an absent key,
which `properties.get(key, default)` replaces by the default. -/
structure Properties where
  length : Option PropValue
  E : Option PropValue
  I : Option PropValue
deriving DecidableEq, Repr

/-- The distinct `raise` sites of the module, one constructor per site:
`invalidProperty` for the `float()` conversion failure, `coincidentSupports`
for the zero effective length in `_calculate_reactions_simply_supported`,
`horizontallyUnstable` and `unsupportedCombination` for the two support-pattern
errors, `coincidentSupportGrid` for the correction-line division guard, and
`gridError` for the Python exception raised when the grid has fewer than two
points (`dx = length / 0` or an invalid `np.linspace` count). -/
inductive AnalysisError where
  | invalidProperty
  | coincidentSupports
  | horizontallyUnstable
  | unsupportedCombination
  | coincidentSupportGrid
  | gridError
deriving DecidableEq, Repr

/-- One row of the result DataFrame:
`Position_m, Shear_Force_N, Bending_Moment_Nm, Slope_rad, Deflection_m`. -/
structure Sample where
  position : ℚ
  shear : ℚ
  moment : ℚ
  slope : ℚ
  deflection : ℚ
deriving DecidableEq, Repr

instance : Inhabited Sample := ⟨⟨0, 0, 0, 0, 0⟩⟩

/-- `float(properties.get(key, default))`: an absent key yields the default,
a numeric value is passed through, a non-numeric value raises the
`Invalid beam property` error. -/
def getFloat : Option PropValue → ℚ → Except AnalysisError ℚ
  | none, d => .ok d
  | some (.num q), _ => .ok q
  | some .nonNumeric, _ => .error .invalidProperty

/-- Magnitude of a load's equivalent resultant force, as accumulated into
`total_force` by both reaction routines: a point load contributes its
magnitude, a distributed load contributes `magnitude * (end - start)`. -/
def resultantForce : Load → ℚ
  | .point mag _ => mag
  | .distributed mag s e => mag * (e - s)

/-- Position of a load's equivalent resultant: the point load's own position,
or `start + load_length / 2` for a distributed load. -/
def resultantPos : Load → ℚ
  | .point _ pos => pos
  | .distributed _ s e => s + (e - s) / 2

/-- The `total_force` accumulation loop shared by both reaction routines. -/
def totalForce (loads : List Load) : ℚ :=
  loads.foldl (fun acc l => acc + resultantForce l) 0

/-- The `total_moment_about_*` accumulation loop: each load adds its resultant
force times the arm from `p` to the resultant position. -/
def totalMomentAbout (p : ℚ) (loads : List Load) : ℚ :=
  loads.foldl (fun acc l => acc + resultantForce l * (resultantPos l - p)) 0

/-- `next((s['position'] for s in supports if s['type'] == 'pinned'), d)`. -/
def findPinnedPos : List Support → ℚ → ℚ
  | [], d => d
  | s :: rest, d => if s.type = .pinned then s.position else findPinnedPos rest d

/-- `next((s['position'] for s in supports if s['type'] == 'roller'), d)`. -/
def findRollerPos : List Support → ℚ → ℚ
  | [], d => d
  | s :: rest, d => if s.type = .roller then s.position else findRollerPos rest d

/-- `_calculate_reactions_simply_supported`: solves the two equilibrium
equations, raising when the effective length `roller_pos - pinned_pos` is zero.
Returns the reaction list (insertion order of the Python dict: pin first) and
the initial moment `0`. -/
def calcReactionsSS (length : ℚ) (supports : List Support) (loads : List Load) :
    Except AnalysisError (List (ℚ × ℚ) × ℚ) :=
  let p := findPinnedPos supports 0
  let r := findRollerPos supports length
  let F := totalForce loads
  let Mp := totalMomentAbout p loads
  if r - p = 0 then .error .coincidentSupports
  else
    let Rr := -Mp / (r - p)
    .ok ([(p, -F - Rr), (r, Rr)], 0)

/-- `_calculate_reactions_cantilever`: reaction force `-total_force` at the
fixed support (`supports[0]`), reaction moment `-total_moment_about_fixed`
returned as the initial moment. -/
def calcReactionsCantilever (supports : List Support) (loads : List Load) :
    List (ℚ × ℚ) × ℚ :=
  let f := (supports.headD ⟨.fixed, 0⟩).position
  ([(f, -totalForce loads)], -totalMomentAbout f loads)

/-- A single load's contribution to the shear sample at position `x`:
`np.where(x >= pos, mag, 0)` for a point load, and for a distributed load the
ramp `np.where((x >= start) & (x < end), mag * (x - start), 0)` plus the
plateau `np.where(x >= end, mag * (end - start), 0)`. -/
def loadContrib (l : Load) (x : ℚ) : ℚ :=
  match l with
  | .point mag pos => if pos ≤ x then mag else 0
  | .distributed mag s e =>
      (if s ≤ x ∧ x < e then mag * (x - s) else 0) +
      (if e ≤ x then mag * (e - s) else 0)

/-- The shear accumulation loops of `solve_beam` at one grid position `x`:
starting from `np.zeros`, each reaction adds its Heaviside step
`np.where(x >= pos, mag, 0)`, then each load adds `loadContrib`. -/
def shearAt (x : ℚ) (reactions : List (ℚ × ℚ)) (loads : List Load) : ℚ :=
  reactions.foldl (fun acc pm => acc + (if pm.1 ≤ x then pm.2 else 0)) 0 +
  loads.foldl (fun acc l => acc + loadContrib l x) 0

/-- `np.cumsum` of a sample series: the inclusive running sum. -/
def cumsum (f : ℕ → ℚ) : ℕ → ℚ
  | 0 => f 0
  | i + 1 => cumsum f i + f (i + 1)

/-- `num_points = int(length * 200) + 1`, kept in ℤ (for nonnegative lengths
Python's `int()` truncation agrees with the floor). -/
def numPointsZ (length : ℚ) : ℤ := ⌊length * 200⌋ + 1

/-- `dx = length / (num_points - 1)`. -/
def dxOf (length : ℚ) (n : ℕ) : ℚ := length / ((n : ℚ) - 1)

/-- `x = np.linspace(0, length, num_points)`: sample `i` sits at `i * dx`. -/
def gridX (length : ℚ) (n : ℕ) (i : ℕ) : ℚ := (i : ℚ) * dxOf length n

/-- The shear series `V` over the grid. -/
def shearSeries (length : ℚ) (n : ℕ) (reactions : List (ℚ × ℚ))
    (loads : List Load) : ℕ → ℚ :=
  fun i => shearAt (gridX length n i) reactions loads

/-- `M = np.full(num_points, initial_moment); M += np.cumsum(V) * dx`. -/
def momentSeries (initM dx : ℚ) (V : ℕ → ℚ) : ℕ → ℚ :=
  fun i => initM + cumsum V i * dx

/-- `slope = np.cumsum(M / (E * I)) * dx`. -/
def slopeSeries (dx EI : ℚ) (M : ℕ → ℚ) : ℕ → ℚ :=
  fun i => cumsum (fun j => M j / EI) i * dx

/-- `deflection = np.cumsum(slope) * dx` (before boundary correction). -/
def deflRawSeries (dx : ℚ) (slope : ℕ → ℚ) : ℕ → ℚ :=
  fun i => cumsum slope i * dx

/-- Scan step for `np.argmin`: strict `<` keeps the earliest minimum, exactly
as `np.argmin` returns the first occurrence. -/
def argminAux (x : ℕ → ℚ) (p : ℚ) : List ℕ → ℕ → ℕ
  | [], best => best
  | i :: rest, best =>
      if |x i - p| < |x best - p| then argminAux x p rest i
      else argminAux x p rest best

/-- `np.argmin(np.abs(x - p))` over the `n`-point grid. -/
def argminAbs (x : ℕ → ℚ) (n : ℕ) (p : ℚ) : ℕ :=
  argminAux x p ((List.range n).drop 1) 0

/-- The simply-supported boundary correction: subtract the straight line
through the uncorrected deflections at sample indices `ip` and `ir`. -/
def correctDeflection (x d : ℕ → ℚ) (ip ir : ℕ) : ℕ → ℚ :=
  fun i => d i - ((d ir - d ip) / (x ir - x ip) * (x i - x ip) + d ip)

/-- Assembly of the result DataFrame: one `Sample` row per grid index. -/
def assemble (n : ℕ) (x V M sl d : ℕ → ℚ) : List Sample :=
  (List.range n).map fun i => ⟨x i, V i, M i, sl i, d i⟩

/-- The moment series of the pipeline, as a function of the solved reactions. -/
def momentOf (length : ℚ) (n : ℕ) (reactions : List (ℚ × ℚ)) (initM : ℚ)
    (loads : List Load) : ℕ → ℚ :=
  momentSeries initM (dxOf length n) (shearSeries length n reactions loads)

/-- The uncorrected slope series of the pipeline. -/
def slopeOf (length Ev Iv : ℚ) (n : ℕ) (reactions : List (ℚ × ℚ)) (initM : ℚ)
    (loads : List Load) : ℕ → ℚ :=
  slopeSeries (dxOf length n) (Ev * Iv) (momentOf length n reactions initM loads)

/-- The uncorrected deflection series of the pipeline. -/
def deflRawOf (length Ev Iv : ℚ) (n : ℕ) (reactions : List (ℚ × ℚ))
    (initM : ℚ) (loads : List Load) : ℕ → ℚ :=
  deflRawSeries (dxOf length n) (slopeOf length Ev Iv n reactions initM loads)

/-- The grid index nearest the pinned support's position. -/
def ipOf (length : ℚ) (n : ℕ) (supports : List Support) : ℕ :=
  argminAbs (gridX length n) n (findPinnedPos supports 0)

/-- The grid index nearest the roller support's position. -/
def irOf (length : ℚ) (n : ℕ) (supports : List Support) : ℕ :=
  argminAbs (gridX length n) n (findRollerPos supports length)

/-- The part of `solve_beam` after reactions are known: build shear, moment,
slope and raw deflection, then apply the boundary-condition section (`ss`
tells whether the simply-supported correction branch runs; the cantilever
branch only logs a warning and leaves the series unchanged). -/
def solveAfterReactions (length Ev Iv : ℚ) (n : ℕ) (supports : List Support)
    (loads : List Load) (reactions : List (ℚ × ℚ)) (initM : ℚ) (ss : Bool) :
    Except AnalysisError (List Sample) :=
  if ss then
    if gridX length n (irOf length n supports)
        - gridX length n (ipOf length n supports) = 0 then
      .error .coincidentSupportGrid
    else
      .ok (assemble n (gridX length n) (shearSeries length n reactions loads)
        (momentOf length n reactions initM loads)
        (slopeOf length Ev Iv n reactions initM loads)
        (correctDeflection (gridX length n)
          (deflRawOf length Ev Iv n reactions initM loads)
          (ipOf length n supports) (irOf length n supports)))
  else
    .ok (assemble n (gridX length n) (shearSeries length n reactions loads)
      (momentOf length n reactions initM loads)
      (slopeOf length Ev Iv n reactions initM loads)
      (deflRawOf length Ev Iv n reactions initM loads))

/-- Sort key giving the alphabetical order of the Python type strings:
`'fixed' < 'pinned' < 'roller'`. -/
def typeKey : SupportType → ℕ
  | .fixed => 0
  | .pinned => 1
  | .roller => 2

/-- Insertion step of the sort of `sorted([s['type'] for s in supports])`. -/
def insertByKey (t : SupportType) : List SupportType → List SupportType
  | [] => [t]
  | u :: rest =>
      if typeKey t ≤ typeKey u then t :: u :: rest else u :: insertByKey t rest

/-- `sorted([s['type'] for s in supports])` as an insertion sort. -/
def sortTypes : List SupportType → List SupportType
  | [] => []
  | t :: rest => insertByKey t (sortTypes rest)

/-- The number of grid points as a natural number. -/
def nOf (length : ℚ) : ℕ := (numPointsZ length).toNat

/-- `solve_beam`: property retrieval and conversion, grid construction,
support-pattern dispatch, reaction solving, integration, boundary correction
and assembly, with every `raise` surfaced as an `Except.error`. -/
def solveBeam (props : Properties) (supports : List Support)
    (loads : List Load) : Except AnalysisError (List Sample) :=
  match getFloat props.length 10, getFloat props.E (200 * 10 ^ 9),
      getFloat props.I (83 / 10 ^ 6) with
  | .error e, _, _ => .error e
  | .ok _, .error e, _ => .error e
  | .ok _, .ok _, .error e => .error e
  | .ok L, .ok Ev, .ok Iv =>
    if numPointsZ L < 2 then .error .gridError
    else
      let st := sortTypes (supports.map Support.type)
      if st = [.pinned, .roller] then
        match calcReactionsSS L supports loads with
        | .error e => .error e
        | .ok (reactions, initM) =>
            solveAfterReactions L Ev Iv (nOf L) supports loads reactions initM
              true
      else if st = [.fixed] ∧ supports.length = 1 then
        let rm := calcReactionsCantilever supports loads
        solveAfterReactions L Ev Iv (nOf L) supports loads rm.1 rm.2 false
      else if SupportType.pinned ∉ st ∧ SupportType.fixed ∉ st then
        .error .horizontallyUnstable
      else .error .unsupportedCombination

/-- Extract the rows of a successful solve, with a fallback for errors. -/
def getOkD {ε α : Type} : Except ε α → α → α
  | .ok a, _ => a
  | .error _, d => d

/-- Whether a solve succeeded. -/
def isOkE {ε α : Type} : Except ε α → Bool
  | .ok _ => true
  | .error _ => false

/-- Scale a load's magnitude, keeping its geometry. -/
def scaleLoad (c : ℚ) : Load → Load
  | .point mag pos => .point (c * mag) pos
  | .distributed mag s e => .distributed (c * mag) s e

/-- Scale the force-derived fields of a result row, keeping the position. -/
def scaleSample (c : ℚ) (s : Sample) : Sample :=
  ⟨s.position, c * s.shear, c * s.moment, c * s.slope, c * s.deflection⟩

/-! ## Basic lemmas about the accumulation loops -/

lemma foldl_add_eq {α : Type} (f : α → ℚ) :
    ∀ (l : List α) (a : ℚ),
      l.foldl (fun acc y => acc + f y) a = a + (l.map f).sum := by
  intro l
  induction l with
  | nil => intro a; simp
  | cons y ys ih => intro a; simp [ih]; ring

lemma totalForce_eq_sum (loads : List Load) :
    totalForce loads = (loads.map resultantForce).sum := by
  unfold totalForce
  rw [foldl_add_eq]
  ring

lemma totalMomentAbout_eq_sum (p : ℚ) (loads : List Load) :
    totalMomentAbout p loads
      = (loads.map fun l => resultantForce l * (resultantPos l - p)).sum := by
  unfold totalMomentAbout
  rw [foldl_add_eq]
  ring

lemma totalMomentAbout_shift (p q : ℚ) (loads : List Load) :
    totalMomentAbout q loads
      = totalMomentAbout p loads + (p - q) * totalForce loads := by
  rw [totalMomentAbout_eq_sum, totalMomentAbout_eq_sum, totalForce_eq_sum]
  induction loads with
  | nil => simp
  | cons y ys ih => simp [ih]; ring

lemma cumsum_eq_sum (f : ℕ → ℚ) (i : ℕ) :
    cumsum f i = Finset.sum (Finset.range (i + 1)) f := by
  induction i with
  | zero => simp [cumsum]
  | succ k ih => rw [Finset.sum_range_succ, ← ih]; rfl

/-- C1: for every valid simply-supported configuration (pinned at `p`, roller
at `r`, effective span `r - p ≠ 0`) the reaction solver returns
`R_roller = -M_about_pin / (r - p)` and `R_pin = -F_total - R_roller`, where
`F_total` is the sum of the load resultants and `M_about_pin` the sum of each
resultant times its arm about the pin; consequently the reactions and loads
sum to zero and the net moment about any point `q` vanishes. -/
theorem c1_reactions_equilibrium (L : ℚ) (supports : List Support)
    (loads : List Load) (p r : ℚ)
    (hp : p = findPinnedPos supports 0) (hr : r = findRollerPos supports L)
    (h : r - p ≠ 0) :
    calcReactionsSS L supports loads =
      .ok ([(p, -totalForce loads - -totalMomentAbout p loads / (r - p)),
            (r, -totalMomentAbout p loads / (r - p))], 0)
    ∧ totalForce loads = (loads.map resultantForce).sum
    ∧ totalMomentAbout p loads
        = (loads.map fun l => resultantForce l * (resultantPos l - p)).sum
    ∧ (-totalForce loads - -totalMomentAbout p loads / (r - p))
        + -totalMomentAbout p loads / (r - p) + totalForce loads = 0
    ∧ ∀ q : ℚ,
        (-totalForce loads - -totalMomentAbout p loads / (r - p)) * (p - q)
          + -totalMomentAbout p loads / (r - p) * (r - q)
          + (loads.map fun l => resultantForce l * (resultantPos l - q)).sum
          = 0 := by
  subst hp hr
  refine ⟨?_, totalForce_eq_sum loads, totalMomentAbout_eq_sum _ loads,
    by ring, ?_⟩
  · unfold calcReactionsSS
    rw [if_neg h]
  · intro q
    rw [← totalMomentAbout_eq_sum,
      totalMomentAbout_shift (findPinnedPos supports 0) q loads]
    field_simp
    ring

theorem c1_witness :
    ((0 : ℚ) = findPinnedPos [⟨.pinned, 0⟩, ⟨.roller, 1⟩] 0)
    ∧ ((1 : ℚ) = findRollerPos [⟨.pinned, 0⟩, ⟨.roller, 1⟩] 1)
    ∧ ((1 : ℚ) - 0 ≠ 0)
    ∧ calcReactionsSS 1 [⟨.pinned, 0⟩, ⟨.roller, 1⟩] [.point (-10) (1/2)] =
        .ok ([((0 : ℚ),
               -totalForce [.point (-10) (1/2)]
                 - -totalMomentAbout 0 [.point (-10) (1/2)] / ((1 : ℚ) - 0)),
              ((1 : ℚ),
               -totalMomentAbout 0 [.point (-10) (1/2)] / ((1 : ℚ) - 0))], 0)
    ∧ (-totalForce [Load.point (-10) (1/2)]
        - -totalMomentAbout 0 [Load.point (-10) (1/2)] / ((1 : ℚ) - 0))
          * (0 - 7)
        + -totalMomentAbout 0 [Load.point (-10) (1/2)] / ((1 : ℚ) - 0) * (1 - 7)
        + ([Load.point (-10) (1/2)].map
            fun l => resultantForce l * (resultantPos l - 7)).sum = 0 := by
  have h := c1_reactions_equilibrium 1 [⟨.pinned, 0⟩, ⟨.roller, 1⟩]
    [.point (-10) (1/2)] 0 1 rfl rfl (by norm_num)
  exact ⟨rfl, rfl, by norm_num, h.1, h.2.2.2.2 7⟩

/-- C2: the bending-moment series is the `initial_moment` baseline plus the
`dx`-scaled inclusive running sum of shear, the uncorrected slope and
deflection series are the `dx`-scaled running sums of `M/(E·I)` and of slope,
and the initial moment is `0` for a simply-supported beam and the fixed-end
reaction moment `-M_about_fixed` for a cantilever. -/
theorem c2_integration_series (initM dx EI L : ℚ) (V M sl : ℕ → ℚ) (i : ℕ)
    (supports : List Support) (loads : List Load)
    (h : findRollerPos supports L - findPinnedPos supports 0 ≠ 0) :
    momentSeries initM dx V i
      = initM + dx * Finset.sum (Finset.range (i + 1)) V
    ∧ slopeSeries dx EI M i
      = dx * Finset.sum (Finset.range (i + 1)) (fun j => M j / EI)
    ∧ deflRawSeries dx sl i
      = dx * Finset.sum (Finset.range (i + 1)) sl
    ∧ (∃ rr, calcReactionsSS L supports loads = .ok (rr, 0))
    ∧ (calcReactionsCantilever supports loads).2
        = -totalMomentAbout (supports.headD ⟨.fixed, 0⟩).position loads := by
  refine ⟨?_, ?_, ?_, ?_, rfl⟩
  · unfold momentSeries
    rw [cumsum_eq_sum]
    ring
  · unfold slopeSeries
    rw [cumsum_eq_sum]
    ring
  · unfold deflRawSeries
    rw [cumsum_eq_sum]
    ring
  · unfold calcReactionsSS
    rw [if_neg h]
    exact ⟨_, rfl⟩

theorem c2_witness :
    (findRollerPos [⟨.pinned, 0⟩, ⟨.roller, 1⟩] 1
      - findPinnedPos [⟨.pinned, 0⟩, ⟨.roller, 1⟩] 0 ≠ 0)
    ∧ momentSeries 5 (1/2) (fun j => (j : ℚ)) 3
        = 5 + (1/2) * Finset.sum (Finset.range 4) (fun j => (j : ℚ)) := by
  have e1 : findRollerPos [⟨.pinned, 0⟩, ⟨.roller, 1⟩] 1 = (1 : ℚ) := rfl
  have e2 : findPinnedPos [⟨.pinned, 0⟩, ⟨.roller, 1⟩] 0 = (0 : ℚ) := rfl
  have h := c2_integration_series 5 (1/2) 2 1 (fun j => (j : ℚ))
    (fun j => (j : ℚ)) (fun j => (j : ℚ)) 3 [⟨.pinned, 0⟩, ⟨.roller, 1⟩] []
    (by rw [e1, e2]; norm_num)
  exact ⟨by rw [e1, e2]; norm_num, h.1⟩

/-- C3: the shear value at a grid position `x` is the superposed sum of
independent contributions: each reaction `(p, m)` adds `m` once `x ≥ p`, each
point load likewise, and each distributed load adds the ramp `m * (x - start)`
inside its span and the plateau `m * (end - start)` from `end` on. -/
theorem c3_shear_superposition (x : ℚ) (reactions : List (ℚ × ℚ))
    (loads : List Load) :
    shearAt x reactions loads =
      (reactions.map fun pm => if pm.1 ≤ x then pm.2 else 0).sum +
      (loads.map fun l =>
        match l with
        | .point mag pos => if pos ≤ x then mag else 0
        | .distributed mag s e =>
            (if s ≤ x ∧ x < e then mag * (x - s) else 0) +
            (if e ≤ x then mag * (e - s) else 0)).sum := by
  unfold shearAt
  rw [foldl_add_eq (fun pm : ℚ × ℚ => if pm.1 ≤ x then pm.2 else 0) reactions 0,
    foldl_add_eq (fun l => loadContrib l x) loads 0]
  simp only [zero_add, loadContrib]

/-! ## Lemmas about the grid, argmin and assembly -/

lemma argminAux_cases (x : ℕ → ℚ) (p : ℚ) :
    ∀ (l : List ℕ) (b : ℕ), argminAux x p l b = b ∨ argminAux x p l b ∈ l := by
  intro l
  induction l with
  | nil => intro b; exact Or.inl rfl
  | cons i rest ih =>
    intro b
    unfold argminAux
    split
    · rcases ih i with h | h
      · exact Or.inr (by rw [h]; exact List.mem_cons_self i rest)
      · exact Or.inr (List.mem_cons_of_mem i h)
    · rcases ih b with h | h
      · exact Or.inl h
      · exact Or.inr (List.mem_cons_of_mem i h)

lemma argminAbs_lt (x : ℕ → ℚ) (n : ℕ) (p : ℚ) (hn : 0 < n) :
    argminAbs x n p < n := by
  unfold argminAbs
  rcases argminAux_cases x p ((List.range n).drop 1) 0 with h | h
  · omega
  · have := List.mem_of_mem_drop h
    exact List.mem_range.mp this

lemma assemble_length (n : ℕ) (x V M sl d : ℕ → ℚ) :
    (assemble n x V M sl d).length = n := by
  simp [assemble]

lemma assemble_getD (n : ℕ) (x V M sl d : ℕ → ℚ) (i : ℕ) (hi : i < n) :
    (assemble n x V M sl d).getD i default = ⟨x i, V i, M i, sl i, d i⟩ := by
  have hlen : i < (assemble n x V M sl d).length := by
    rw [assemble_length]; exact hi
  rw [List.getD_eq_getElem _ _ hlen]
  simp [assemble]

lemma nOf_ge_two (L : ℚ) (h2 : ¬ numPointsZ L < 2) : 2 ≤ nOf L := by
  unfold nOf
  omega

/-- The simply-supported success path of `solve_beam`, reduced to
`solveAfterReactions`. -/
lemma solveBeam_ss_eq (L Ev Iv : ℚ) (supports : List Support)
    (loads : List Load) (reactions : List (ℚ × ℚ)) (initM : ℚ)
    (h2 : ¬ numPointsZ L < 2)
    (hss : sortTypes (supports.map Support.type)
      = [SupportType.pinned, SupportType.roller])
    (hre : calcReactionsSS L supports loads = .ok (reactions, initM)) :
    solveBeam ⟨some (.num L), some (.num Ev), some (.num Iv)⟩ supports loads
      = solveAfterReactions L Ev Iv (nOf L) supports loads reactions initM
          true := by
  unfold solveBeam
  simp only [getFloat]
  rw [if_neg h2, if_pos hss, hre]

/-- C4: on the simply-supported path the returned deflection series is the
raw double-integration series minus the straight line through its values at
the grid indices nearest the pin and the roller, hence the returned
deflection vanishes exactly at those two indices. -/
theorem c4_deflection_correction (L Ev Iv : ℚ) (supports : List Support)
    (loads : List Load) (reactions : List (ℚ × ℚ)) (n : ℕ) (x dr d : ℕ → ℚ)
    (ip ir : ℕ)
    (hn : n = nOf L) (hx : x = gridX L n)
    (hip : ip = ipOf L n supports) (hir : ir = irOf L n supports)
    (hdr : dr = deflRawOf L Ev Iv n reactions 0 loads)
    (hd : d = correctDeflection x dr ip ir)
    (h2 : ¬ numPointsZ L < 2)
    (hss : sortTypes (supports.map Support.type)
      = [SupportType.pinned, SupportType.roller])
    (hre : calcReactionsSS L supports loads = .ok (reactions, 0))
    (hgrid : x ir - x ip ≠ 0) :
    solveBeam ⟨some (.num L), some (.num Ev), some (.num Iv)⟩ supports loads
      = .ok (assemble n x (shearSeries L n reactions loads)
          (momentOf L n reactions 0 loads)
          (slopeOf L Ev Iv n reactions 0 loads) d)
    ∧ (∀ i, d i
        = dr i - ((dr ir - dr ip) / (x ir - x ip) * (x i - x ip) + dr ip))
    ∧ ((assemble n x (shearSeries L n reactions loads)
          (momentOf L n reactions 0 loads)
          (slopeOf L Ev Iv n reactions 0 loads) d).getD ip default).deflection
        = 0
    ∧ ((assemble n x (shearSeries L n reactions loads)
          (momentOf L n reactions 0 loads)
          (slopeOf L Ev Iv n reactions 0 loads) d).getD ir default).deflection
        = 0 := by
  subst hd hdr hip hir hx hn
  have hnn : 0 < nOf L := by have := nOf_ge_two L h2; omega
  have hiplt : ipOf L (nOf L) supports < nOf L := by
    unfold ipOf; exact argminAbs_lt _ _ _ hnn
  have hirlt : irOf L (nOf L) supports < nOf L := by
    unfold irOf; exact argminAbs_lt _ _ _ hnn
  refine ⟨?_, ?_, ?_, ?_⟩
  · rw [solveBeam_ss_eq L Ev Iv supports loads reactions 0 h2 hss hre]
    unfold solveAfterReactions
    rw [if_pos rfl, if_neg hgrid]
  · intro i
    unfold correctDeflection
    ring
  · rw [assemble_getD _ _ _ _ _ _ _ hiplt]
    dsimp only
    unfold correctDeflection
    ring
  · rw [assemble_getD _ _ _ _ _ _ _ hirlt]
    dsimp only
    unfold correctDeflection
    rw [div_mul_cancel₀ _ hgrid]
    ring

theorem c4_witness :
    (¬ numPointsZ (1/100 : ℚ) < 2)
    ∧ calcReactionsSS (1/100) [⟨.pinned, 0⟩, ⟨.roller, 1/100⟩]
        [.point (-1) (1/400)] = .ok ([(0, 3/4), (1/100, 1/4)], 0)
    ∧ (gridX (1/100) (nOf (1/100))
        (irOf (1/100) (nOf (1/100)) [⟨.pinned, 0⟩, ⟨.roller, 1/100⟩])
        - gridX (1/100) (nOf (1/100))
          (ipOf (1/100) (nOf (1/100)) [⟨.pinned, 0⟩, ⟨.roller, 1/100⟩]) ≠ 0)
    ∧ ((getOkD (solveBeam ⟨some (.num (1/100)), some (.num 1), some (.num 1)⟩
          [⟨.pinned, 0⟩, ⟨.roller, 1/100⟩] [.point (-1) (1/400)]) []).getD
          (ipOf (1/100) (nOf (1/100)) [⟨.pinned, 0⟩, ⟨.roller, 1/100⟩])
          default).deflection = 0
    ∧ ((getOkD (solveBeam ⟨some (.num (1/100)), some (.num 1), some (.num 1)⟩
          [⟨.pinned, 0⟩, ⟨.roller, 1/100⟩] [.point (-1) (1/400)]) []).getD
          (irOf (1/100) (nOf (1/100)) [⟨.pinned, 0⟩, ⟨.roller, 1/100⟩])
          default).deflection = 0 := by
  have h2 : ¬ numPointsZ (1/100 : ℚ) < 2 := by
    rw [show numPointsZ (1/100 : ℚ) = 3 from by with_unfolding_all rfl]
    omega
  have hss : sortTypes (([⟨.pinned, 0⟩, ⟨.roller, 1/100⟩] :
      List Support).map Support.type)
      = [SupportType.pinned, SupportType.roller] := rfl
  have hre : calcReactionsSS (1/100) [⟨.pinned, 0⟩, ⟨.roller, 1/100⟩]
      [.point (-1) (1/400)] = .ok ([(0, 3/4), (1/100, 1/4)], 0) := by
    with_unfolding_all rfl
  have hgrid : gridX (1/100) (nOf (1/100))
      (irOf (1/100) (nOf (1/100)) [⟨.pinned, 0⟩, ⟨.roller, 1/100⟩])
      - gridX (1/100) (nOf (1/100))
        (ipOf (1/100) (nOf (1/100)) [⟨.pinned, 0⟩, ⟨.roller, 1/100⟩])
      ≠ 0 := by
    rw [show gridX (1/100) (nOf (1/100))
        (irOf (1/100) (nOf (1/100)) [⟨.pinned, 0⟩, ⟨.roller, 1/100⟩])
        - gridX (1/100) (nOf (1/100))
          (ipOf (1/100) (nOf (1/100)) [⟨.pinned, 0⟩, ⟨.roller, 1/100⟩])
        = (1/100 : ℚ) from by with_unfolding_all rfl]
    norm_num
  have h := c4_deflection_correction (1/100) 1 1
    [⟨.pinned, 0⟩, ⟨.roller, 1/100⟩] [.point (-1) (1/400)]
    [(0, 3/4), (1/100, 1/4)] _ _ _ _ _ _ rfl rfl rfl rfl rfl rfl
    h2 hss hre hgrid
  refine ⟨h2, hre, hgrid, ?_, ?_⟩
  · rw [h.1]
    exact h.2.2.1
  · rw [h.1]
    exact h.2.2.2

/-- C7: a simply-supported configuration whose pinned and roller supports
coincide makes the solver return the coincident-support error from the
reaction solver; no division by the zero span is ever performed and no
result rows are produced. -/
theorem c7_coincident_supports_error (L Ev Iv : ℚ) (supports : List Support)
    (loads : List Load)
    (h2 : ¬ numPointsZ L < 2)
    (hss : sortTypes (supports.map Support.type)
      = [SupportType.pinned, SupportType.roller])
    (hco : findRollerPos supports L - findPinnedPos supports 0 = 0) :
    solveBeam ⟨some (.num L), some (.num Ev), some (.num Iv)⟩ supports loads
      = .error .coincidentSupports := by
  have hcr : calcReactionsSS L supports loads = .error .coincidentSupports := by
    unfold calcReactionsSS
    rw [if_pos hco]
  unfold solveBeam
  simp only [getFloat]
  rw [if_neg h2, if_pos hss, hcr]

theorem c7_witness :
    (¬ numPointsZ (1/100 : ℚ) < 2)
    ∧ sortTypes (([⟨.pinned, 0⟩, ⟨.roller, 0⟩] : List Support).map Support.type)
        = [SupportType.pinned, SupportType.roller]
    ∧ findRollerPos [⟨.pinned, 0⟩, ⟨.roller, 0⟩] (1/100)
        - findPinnedPos [⟨.pinned, 0⟩, ⟨.roller, 0⟩] 0 = 0
    ∧ solveBeam ⟨some (.num (1/100)), some (.num 1), some (.num 1)⟩
        [⟨.pinned, 0⟩, ⟨.roller, 0⟩] [.point (-1) (1/200)]
        = .error .coincidentSupports := by
  have h2 : ¬ numPointsZ (1/100 : ℚ) < 2 := by
    rw [show numPointsZ (1/100 : ℚ) = 3 from by with_unfolding_all rfl]
    omega
  have hco : findRollerPos [⟨.pinned, 0⟩, ⟨.roller, 0⟩] (1/100)
      - findPinnedPos [⟨.pinned, 0⟩, ⟨.roller, 0⟩] 0 = 0 := by
    with_unfolding_all rfl
  exact ⟨h2, rfl, hco,
    c7_coincident_supports_error (1/100) 1 1 _ _ h2 rfl hco⟩

/-- C8: a support list that is neither one pinned plus one roller nor a
single fixed support makes the solver return a configuration error before
any reactions are computed, and the error is the specific horizontally
unstable one exactly when the list contains neither a pinned nor a fixed
support (otherwise the generic unsupported-combination error, a distinct
error value). -/
theorem c8_unsupported_configuration_error (L Ev Iv : ℚ)
    (supports : List Support) (loads : List Load)
    (h2 : ¬ numPointsZ L < 2)
    (hnss : sortTypes (supports.map Support.type)
      ≠ [SupportType.pinned, SupportType.roller])
    (hnc : ¬(sortTypes (supports.map Support.type) = [SupportType.fixed]
      ∧ supports.length = 1)) :
    solveBeam ⟨some (.num L), some (.num Ev), some (.num Iv)⟩ supports loads
      = .error
          (if SupportType.pinned ∉ sortTypes (supports.map Support.type)
              ∧ SupportType.fixed ∉ sortTypes (supports.map Support.type)
            then .horizontallyUnstable else .unsupportedCombination)
    ∧ AnalysisError.horizontallyUnstable
        ≠ AnalysisError.unsupportedCombination := by
  refine ⟨?_, by decide⟩
  unfold solveBeam
  simp only [getFloat]
  rw [if_neg h2, if_neg hnss, if_neg hnc]
  by_cases hu : SupportType.pinned ∉ sortTypes (supports.map Support.type)
      ∧ SupportType.fixed ∉ sortTypes (supports.map Support.type)
  · rw [if_pos hu, if_pos hu]
  · rw [if_neg hu, if_neg hu]

theorem c8_witness :
    (¬ numPointsZ (1/100 : ℚ) < 2)
    ∧ sortTypes (([⟨.roller, 0⟩, ⟨.roller, 1/100⟩] :
        List Support).map Support.type)
        ≠ [SupportType.pinned, SupportType.roller]
    ∧ ¬(sortTypes (([⟨.roller, 0⟩, ⟨.roller, 1/100⟩] :
        List Support).map Support.type) = [SupportType.fixed]
        ∧ ([⟨.roller, 0⟩, ⟨.roller, 1/100⟩] : List Support).length = 1)
    ∧ solveBeam ⟨some (.num (1/100)), some (.num 1), some (.num 1)⟩
        [⟨.roller, 0⟩, ⟨.roller, 1/100⟩] []
        = .error .horizontallyUnstable := by
  have h2 : ¬ numPointsZ (1/100 : ℚ) < 2 := by
    rw [show numPointsZ (1/100 : ℚ) = 3 from by with_unfolding_all rfl]
    omega
  have h := (c8_unsupported_configuration_error (1/100) 1 1
    [⟨.roller, 0⟩, ⟨.roller, 1/100⟩] [] h2 (by decide) (by decide)).1
  exact ⟨h2, by decide, by decide, h⟩

/-- Any successful solve yields exactly the assembled grid table. -/
lemma solveBeam_ok_inv (L Ev Iv : ℚ) (supports : List Support)
    (loads : List Load) (rows : List Sample)
    (h : solveBeam ⟨some (.num L), some (.num Ev), some (.num Iv)⟩ supports
      loads = .ok rows) :
    ¬ numPointsZ L < 2
    ∧ ∃ V M sl d, rows = assemble (nOf L) (gridX L (nOf L)) V M sl d := by
  unfold solveBeam at h
  simp only [getFloat] at h
  by_cases h2 : numPointsZ L < 2
  · rw [if_pos h2] at h
    exact absurd h (by simp)
  · rw [if_neg h2] at h
    refine ⟨h2, ?_⟩
    by_cases hss : sortTypes (supports.map Support.type)
        = [SupportType.pinned, SupportType.roller]
    · rw [if_pos hss] at h
      cases hcr : calcReactionsSS L supports loads with
      | error e =>
        rw [hcr] at h
        exact absurd h (by simp)
      | ok pr =>
        rw [hcr] at h
        obtain ⟨reactions, initM⟩ := pr
        unfold solveAfterReactions at h
        dsimp only at h
        rw [if_pos rfl] at h
        by_cases hg : gridX L (nOf L) (irOf L (nOf L) supports)
            - gridX L (nOf L) (ipOf L (nOf L) supports) = 0
        · rw [if_pos hg] at h
          exact absurd h (by simp)
        · rw [if_neg hg] at h
          simp only [Except.ok.injEq] at h
          exact ⟨_, _, _, _, h.symm⟩
    · rw [if_neg hss] at h
      by_cases hc : sortTypes (supports.map Support.type) = [SupportType.fixed]
          ∧ supports.length = 1
      · rw [if_pos hc] at h
        unfold solveAfterReactions at h
        simp only [Bool.false_eq_true, if_false, Except.ok.injEq] at h
        exact ⟨_, _, _, _, h.symm⟩
      · rw [if_neg hc] at h
        by_cases hu : SupportType.pinned ∉ sortTypes (supports.map Support.type)
            ∧ SupportType.fixed ∉ sortTypes (supports.map Support.type)
        · rw [if_pos hu] at h
          exact absurd h (by simp)
        · rw [if_neg hu] at h
          exact absurd h (by simp)

/-- C6: every successful solve returns exactly
`N = floor(length * 200) + 1` rows on the uniform grid from `0` to `length`
inclusive with spacing `dx = length / (N - 1)`, positions strictly
ascending. -/
theorem c6_result_grid (L Ev Iv : ℚ) (supports : List Support)
    (loads : List Load) (rows : List Sample)
    (h : solveBeam ⟨some (.num L), some (.num Ev), some (.num Iv)⟩ supports
      loads = .ok rows) :
    rows.length = (⌊L * 200⌋ + 1).toNat
    ∧ 2 ≤ rows.length
    ∧ (∀ i, i < rows.length →
        (rows.getD i default).position
          = (i : ℚ) * (L / ((rows.length : ℚ) - 1)))
    ∧ (rows.getD 0 default).position = 0
    ∧ (rows.getD (rows.length - 1) default).position = L
    ∧ (∀ i, i + 1 < rows.length →
        (rows.getD (i + 1) default).position - (rows.getD i default).position
          = L / ((rows.length : ℚ) - 1))
    ∧ (∀ i, i + 1 < rows.length →
        (rows.getD i default).position
          < (rows.getD (i + 1) default).position) := by
  obtain ⟨h2, V, M, sl, d, hrows⟩ := solveBeam_ok_inv L Ev Iv supports loads
    rows h
  have hn2 : 2 ≤ nOf L := nOf_ge_two L h2
  have hL1 : (1 : ℚ) ≤ L * 200 := by
    have h1 : (1 : ℤ) ≤ ⌊L * 200⌋ := by unfold numPointsZ at h2; omega
    exact_mod_cast Int.le_floor.mp h1
  have hLpos : 0 < L := by linarith
  have hcast : (2 : ℚ) ≤ (nOf L : ℚ) := by exact_mod_cast hn2
  have hne : ((nOf L : ℚ) - 1) ≠ 0 := by linarith
  have hdx : 0 < dxOf L (nOf L) := div_pos hLpos (by linarith)
  subst hrows
  simp only [assemble_length]
  refine ⟨rfl, hn2, ?_, ?_, ?_, ?_, ?_⟩
  · intro i hi
    rw [assemble_getD _ _ _ _ _ _ _ hi]
    rfl
  · rw [assemble_getD _ _ _ _ _ _ _ (by omega)]
    show gridX L (nOf L) 0 = 0
    unfold gridX
    simp
  · rw [assemble_getD _ _ _ _ _ _ _ (by omega)]
    show gridX L (nOf L) (nOf L - 1) = L
    unfold gridX dxOf
    rw [Nat.cast_sub (by omega : 1 ≤ nOf L)]
    rw [Nat.cast_one, mul_comm, div_mul_cancel₀ _ hne]
  · intro i hi
    rw [assemble_getD _ _ _ _ _ _ _ (by omega),
      assemble_getD _ _ _ _ _ _ _ (by omega)]
    show gridX L (nOf L) (i + 1) - gridX L (nOf L) i = _
    unfold gridX dxOf
    push_cast
    ring
  · intro i hi
    rw [assemble_getD _ _ _ _ _ _ _ (by omega),
      assemble_getD _ _ _ _ _ _ _ (by omega)]
    show gridX L (nOf L) i < gridX L (nOf L) (i + 1)
    unfold gridX
    rw [show ((i + 1 : ℕ) : ℚ) = (i : ℚ) + 1 by push_cast; ring]
    exact mul_lt_mul_of_pos_right (by linarith) hdx

theorem c6_witness :
    solveBeam ⟨some (.num (1/100)), some (.num 1), some (.num 1)⟩
      [⟨.pinned, 0⟩, ⟨.roller, 1/100⟩] [.point (-1) (1/200)]
      = .ok (getOkD (solveBeam ⟨some (.num (1/100)), some (.num 1),
          some (.num 1)⟩ [⟨.pinned, 0⟩, ⟨.roller, 1/100⟩]
          [.point (-1) (1/200)]) [])
    ∧ (getOkD (solveBeam ⟨some (.num (1/100)), some (.num 1), some (.num 1)⟩
        [⟨.pinned, 0⟩, ⟨.roller, 1/100⟩] [.point (-1) (1/200)]) []).length
        = (⌊(1/100 : ℚ) * 200⌋ + 1).toNat
    ∧ ((getOkD (solveBeam ⟨some (.num (1/100)), some (.num 1), some (.num 1)⟩
        [⟨.pinned, 0⟩, ⟨.roller, 1/100⟩] [.point (-1) (1/200)]) []).getD 0
          default).position = 0 := by
  have hok : solveBeam ⟨some (.num (1/100)), some (.num 1), some (.num 1)⟩
      [⟨.pinned, 0⟩, ⟨.roller, 1/100⟩] [.point (-1) (1/200)]
      = .ok (getOkD (solveBeam ⟨some (.num (1/100)), some (.num 1),
          some (.num 1)⟩ [⟨.pinned, 0⟩, ⟨.roller, 1/100⟩]
          [.point (-1) (1/200)]) []) := by
    with_unfolding_all rfl
  have h := c6_result_grid (1/100) 1 1 [⟨.pinned, 0⟩, ⟨.roller, 1/100⟩]
    [.point (-1) (1/200)] _ hok
  exact ⟨hok, h.1, h.2.2.2.1⟩

/-- C5 counterexample: with the keys `E` and `I` absent from the properties
mapping, the solve succeeds and returns rows — the deflection step does not
fail with an error, refuting the claim that a missing `E` or `I` aborts the
analysis. -/
theorem c5_missing_stiffness_counterexample :
    isOkE (solveBeam ⟨some (.num (1/100)), none, none⟩
      [⟨.pinned, 0⟩, ⟨.roller, 1/100⟩] [.point (-1) (1/200)]) = true := by
  with_unfolding_all rfl

/-- C5 (amended): a non-numeric `length`, `E` or `I` fails the validation
step before any computation, but a missing `E` or `I` does not fail — the
defaults are silently substituted — and no positivity check is performed:
a solve with non-positive `E` and `I` also succeeds. -/
theorem c5_property_validation :
    (∀ (pE pI : Option PropValue) (supports : List Support)
        (loads : List Load),
      solveBeam ⟨some .nonNumeric, pE, pI⟩ supports loads
        = .error .invalidProperty)
    ∧ (∀ (Lv : ℚ) (pI : Option PropValue) (supports : List Support)
        (loads : List Load),
      solveBeam ⟨some (.num Lv), some .nonNumeric, pI⟩ supports loads
        = .error .invalidProperty)
    ∧ (∀ (Lv Ev : ℚ) (supports : List Support) (loads : List Load),
      solveBeam ⟨some (.num Lv), some (.num Ev), some .nonNumeric⟩ supports
          loads = .error .invalidProperty)
    ∧ isOkE (solveBeam ⟨some (.num (1/100)), none, some (.num 1)⟩
        [⟨.pinned, 0⟩, ⟨.roller, 1/100⟩] [.point (-2) (1/200)]) = true
    ∧ isOkE (solveBeam ⟨some (.num (1/100)), some (.num (-3)),
        some (.num (-5))⟩ [⟨.pinned, 0⟩, ⟨.roller, 1/100⟩]
        [.point (-2) (1/200)]) = true := by
  refine ⟨fun pE pI supports loads => rfl, fun Lv pI supports loads => rfl,
    fun Lv Ev supports loads => rfl, ?_, ?_⟩
  · with_unfolding_all rfl
  · with_unfolding_all rfl

/-- C10: absent `length`, `E` or `I` keys are silently replaced by the
defaults `10.0`, `200e9` and `8.3e-5` — solving with the empty properties
mapping is literally solving with the default values — and no positivity
check is performed on these values: a solve with negative `E` and `I`
succeeds and produces a full result series. -/
theorem c10_default_properties :
    (∀ (supports : List Support) (loads : List Load),
      solveBeam ⟨none, none, none⟩ supports loads
        = solveBeam ⟨some (.num 10), some (.num (200 * 10 ^ 9)),
            some (.num (83 / 10 ^ 6))⟩ supports loads)
    ∧ isOkE (solveBeam ⟨some (.num (1/100)), none, none⟩
        [⟨.pinned, 0⟩, ⟨.roller, 1/100⟩] [.point (-3) (1/200)]) = true
    ∧ (getOkD (solveBeam ⟨some (.num (1/100)), none, none⟩
        [⟨.pinned, 0⟩, ⟨.roller, 1/100⟩] [.point (-3) (1/200)]) []).length
        = 3
    ∧ isOkE (solveBeam ⟨some (.num (1/100)), some (.num (-7)),
        some (.num (-11))⟩ [⟨.pinned, 0⟩, ⟨.roller, 1/100⟩]
        [.point (-3) (1/200)]) = true := by
  refine ⟨fun supports loads => rfl, ?_, ?_, ?_⟩
  · with_unfolding_all rfl
  · with_unfolding_all rfl
  · with_unfolding_all rfl

/-! ## Linearity of the pipeline in the loads -/

lemma sum_map_mul {α : Type} (c : ℚ) (f : α → ℚ) (l : List α) :
    (l.map fun y => c * f y).sum = c * (l.map f).sum := by
  induction l with
  | nil => simp
  | cons y ys ih => simp [ih]; ring

lemma resultantForce_scale (c : ℚ) (l : Load) :
    resultantForce (scaleLoad c l) = c * resultantForce l := by
  cases l <;> simp [resultantForce, scaleLoad] <;> ring

lemma resultantPos_scale (c : ℚ) (l : Load) :
    resultantPos (scaleLoad c l) = resultantPos l := by
  cases l <;> rfl

lemma totalForce_scale (c : ℚ) (loads : List Load) :
    totalForce (loads.map (scaleLoad c)) = c * totalForce loads := by
  rw [totalForce_eq_sum, totalForce_eq_sum, List.map_map]
  rw [show resultantForce ∘ scaleLoad c = fun l => c * resultantForce l from
    funext fun l => resultantForce_scale c l]
  exact sum_map_mul c resultantForce loads

lemma totalMomentAbout_scale (c p : ℚ) (loads : List Load) :
    totalMomentAbout p (loads.map (scaleLoad c))
      = c * totalMomentAbout p loads := by
  rw [totalMomentAbout_eq_sum, totalMomentAbout_eq_sum, List.map_map]
  rw [show ((fun l => resultantForce l * (resultantPos l - p)) ∘ scaleLoad c)
      = fun l => c * (resultantForce l * (resultantPos l - p)) from
    funext fun l => by
      simp only [Function.comp_apply, resultantForce_scale,
        resultantPos_scale]
      ring]
  exact sum_map_mul c _ loads

lemma loadContrib_scale (c : ℚ) (l : Load) (x : ℚ) :
    loadContrib (scaleLoad c l) x = c * loadContrib l x := by
  cases l <;> simp only [loadContrib, scaleLoad] <;> split_ifs <;> ring

lemma shearAt_scale (c x : ℚ) (reactions : List (ℚ × ℚ))
    (loads : List Load) :
    shearAt x (reactions.map fun pm => (pm.1, c * pm.2))
        (loads.map (scaleLoad c))
      = c * shearAt x reactions loads := by
  unfold shearAt
  rw [foldl_add_eq (fun pm : ℚ × ℚ => if pm.1 ≤ x then pm.2 else 0) _ 0,
    foldl_add_eq (fun l => loadContrib l x) _ 0,
    foldl_add_eq (fun pm : ℚ × ℚ => if pm.1 ≤ x then pm.2 else 0) reactions 0,
    foldl_add_eq (fun l => loadContrib l x) loads 0]
  rw [List.map_map, List.map_map]
  rw [show ((fun pm : ℚ × ℚ => if pm.1 ≤ x then pm.2 else 0)
        ∘ fun pm : ℚ × ℚ => (pm.1, c * pm.2))
      = fun pm : ℚ × ℚ => c * (if pm.1 ≤ x then pm.2 else 0) from
    funext fun pm => by
      simp only [Function.comp_apply]
      split_ifs <;> ring]
  rw [show ((fun l => loadContrib l x) ∘ scaleLoad c)
      = fun l => c * loadContrib l x from
    funext fun l => loadContrib_scale c l x]
  rw [sum_map_mul, sum_map_mul]
  ring

lemma cumsum_scale (c : ℚ) (f : ℕ → ℚ) (i : ℕ) :
    cumsum (fun j => c * f j) i = c * cumsum f i := by
  induction i with
  | zero => rfl
  | succ k ih => simp only [cumsum, ih]; ring

lemma cumsum_congr (f g : ℕ → ℚ) (h : ∀ j, f j = g j) (i : ℕ) :
    cumsum f i = cumsum g i := by
  induction i with
  | zero => exact h 0
  | succ k ih => simp only [cumsum, ih, h]

lemma shearSeries_scale (c L : ℚ) (n : ℕ) (reactions : List (ℚ × ℚ))
    (loads : List Load) :
    shearSeries L n (reactions.map fun pm => (pm.1, c * pm.2))
        (loads.map (scaleLoad c))
      = fun i => c * shearSeries L n reactions loads i :=
  funext fun i => shearAt_scale c _ reactions loads

lemma momentSeries_scale (c m dx : ℚ) (V : ℕ → ℚ) :
    momentSeries (c * m) dx (fun i => c * V i)
      = fun i => c * momentSeries m dx V i := by
  funext i
  unfold momentSeries
  rw [cumsum_scale]
  ring

lemma momentOf_scale (c L : ℚ) (n : ℕ) (reactions : List (ℚ × ℚ))
    (initM : ℚ) (loads : List Load) :
    momentOf L n (reactions.map fun pm => (pm.1, c * pm.2)) (c * initM)
        (loads.map (scaleLoad c))
      = fun i => c * momentOf L n reactions initM loads i := by
  unfold momentOf
  rw [shearSeries_scale, momentSeries_scale]

lemma slopeSeries_scale (c dx EI : ℚ) (M : ℕ → ℚ) :
    slopeSeries dx EI (fun i => c * M i)
      = fun i => c * slopeSeries dx EI M i := by
  funext i
  unfold slopeSeries
  rw [cumsum_congr (fun j => c * M j / EI) (fun j => c * (M j / EI))
    (fun j => by ring) i]
  rw [cumsum_scale]
  ring

lemma slopeOf_scale (c L Ev Iv : ℚ) (n : ℕ) (reactions : List (ℚ × ℚ))
    (initM : ℚ) (loads : List Load) :
    slopeOf L Ev Iv n (reactions.map fun pm => (pm.1, c * pm.2)) (c * initM)
        (loads.map (scaleLoad c))
      = fun i => c * slopeOf L Ev Iv n reactions initM loads i := by
  unfold slopeOf
  rw [momentOf_scale, slopeSeries_scale]

lemma deflRawSeries_scale (c dx : ℚ) (sl : ℕ → ℚ) :
    deflRawSeries dx (fun i => c * sl i)
      = fun i => c * deflRawSeries dx sl i := by
  funext i
  unfold deflRawSeries
  rw [cumsum_scale]
  ring

lemma deflRawOf_scale (c L Ev Iv : ℚ) (n : ℕ) (reactions : List (ℚ × ℚ))
    (initM : ℚ) (loads : List Load) :
    deflRawOf L Ev Iv n (reactions.map fun pm => (pm.1, c * pm.2)) (c * initM)
        (loads.map (scaleLoad c))
      = fun i => c * deflRawOf L Ev Iv n reactions initM loads i := by
  unfold deflRawOf
  rw [slopeOf_scale, deflRawSeries_scale]

lemma correctDeflection_scale (c : ℚ) (x d : ℕ → ℚ) (ip ir : ℕ) :
    correctDeflection x (fun i => c * d i) ip ir
      = fun i => c * correctDeflection x d ip ir i := by
  funext i
  unfold correctDeflection
  rw [show c * d ir - c * d ip = c * (d ir - d ip) by ring, mul_div_assoc]
  ring

lemma assemble_scale (c : ℚ) (n : ℕ) (x V M sl d : ℕ → ℚ) :
    assemble n x (fun i => c * V i) (fun i => c * M i) (fun i => c * sl i)
        (fun i => c * d i)
      = (assemble n x V M sl d).map (scaleSample c) := by
  unfold assemble
  rw [List.map_map]
  rfl

lemma solveAfterReactions_scale (c L Ev Iv : ℚ) (n : ℕ)
    (supports : List Support) (loads : List Load)
    (reactions : List (ℚ × ℚ)) (initM : ℚ) (ss : Bool) :
    solveAfterReactions L Ev Iv n supports (loads.map (scaleLoad c))
        (reactions.map fun pm => (pm.1, c * pm.2)) (c * initM) ss
      = Except.map (List.map (scaleSample c))
          (solveAfterReactions L Ev Iv n supports loads reactions initM ss) := by
  unfold solveAfterReactions
  cases ss with
  | false =>
    simp only [Bool.false_eq_true, if_false, Except.map]
    rw [shearSeries_scale, momentOf_scale, slopeOf_scale, deflRawOf_scale,
      assemble_scale]
  | true =>
    rw [if_pos rfl, if_pos rfl]
    by_cases hg : gridX L n (irOf L n supports) - gridX L n (ipOf L n supports)
        = 0
    · rw [if_pos hg, if_pos hg]
      rfl
    · rw [if_neg hg, if_neg hg]
      simp only [Except.map]
      rw [shearSeries_scale, momentOf_scale, slopeOf_scale, deflRawOf_scale,
        correctDeflection_scale, assemble_scale]

lemma calcReactionsSS_scale (c L : ℚ) (supports : List Support)
    (loads : List Load) :
    calcReactionsSS L supports (loads.map (scaleLoad c))
      = Except.map
          (fun pr => (pr.1.map fun pm => (pm.1, c * pm.2), c * pr.2))
          (calcReactionsSS L supports loads) := by
  unfold calcReactionsSS
  dsimp only
  by_cases hco : findRollerPos supports L - findPinnedPos supports 0 = 0
  · rw [if_pos hco, if_pos hco]
    rfl
  · rw [if_neg hco, if_neg hco]
    dsimp only [Except.map]
    rw [totalForce_scale, totalMomentAbout_scale]
    simp only [List.map_cons, List.map_nil, Except.ok.injEq, Prod.mk.injEq,
      List.cons.injEq, and_true, true_and]
    exact ⟨⟨by ring, by ring⟩, by ring⟩

lemma calcReactionsCantilever_scale (c : ℚ) (supports : List Support)
    (loads : List Load) :
    calcReactionsCantilever supports (loads.map (scaleLoad c))
      = ((calcReactionsCantilever supports loads).1.map
          fun pm => (pm.1, c * pm.2),
        c * (calcReactionsCantilever supports loads).2) := by
  unfold calcReactionsCantilever
  dsimp only
  rw [totalForce_scale, totalMomentAbout_scale]
  simp only [List.map_cons, List.map_nil, Prod.mk.injEq, List.cons.injEq,
    and_true, true_and]
  exact ⟨by ring, by ring⟩

lemma solveBeam_scale (c : ℚ) (props : Properties) (supports : List Support)
    (loads : List Load) :
    solveBeam props supports (loads.map (scaleLoad c))
      = Except.map (List.map (scaleSample c))
          (solveBeam props supports loads) := by
  unfold solveBeam
  cases getFloat props.length 10 with
  | error e => rfl
  | ok L =>
    cases getFloat props.E (200 * 10 ^ 9) with
    | error e => rfl
    | ok Ev =>
      cases getFloat props.I (83 / 10 ^ 6) with
      | error e => rfl
      | ok Iv =>
        dsimp only
        by_cases h2 : numPointsZ L < 2
        · rw [if_pos h2, if_pos h2]
          rfl
        · rw [if_neg h2, if_neg h2]
          by_cases hss : sortTypes (supports.map Support.type)
              = [SupportType.pinned, SupportType.roller]
          · rw [if_pos hss, if_pos hss, calcReactionsSS_scale]
            cases hcr : calcReactionsSS L supports loads with
            | error e => rfl
            | ok pr =>
              obtain ⟨rs, im⟩ := pr
              dsimp only [Except.map]
              exact solveAfterReactions_scale c L Ev Iv (nOf L) supports loads
                rs im true
          · rw [if_neg hss, if_neg hss]
            by_cases hc : sortTypes (supports.map Support.type)
                = [SupportType.fixed] ∧ supports.length = 1
            · rw [if_pos hc, if_pos hc, calcReactionsCantilever_scale]
              dsimp only
              exact solveAfterReactions_scale c L Ev Iv (nOf L) supports loads
                (calcReactionsCantilever supports loads).1
                (calcReactionsCantilever supports loads).2 false
            · rw [if_neg hc, if_neg hc]
              by_cases hu : SupportType.pinned ∉ sortTypes
                    (supports.map Support.type)
                  ∧ SupportType.fixed ∉ sortTypes (supports.map Support.type)
              · rw [if_pos hu]
                rfl
              · rw [if_neg hu]
                rfl

lemma totalForce_perm (l1 l2 : List Load) (h : l1.Perm l2) :
    totalForce l1 = totalForce l2 := by
  rw [totalForce_eq_sum, totalForce_eq_sum]
  exact (h.map resultantForce).sum_eq

lemma totalMomentAbout_perm (p : ℚ) (l1 l2 : List Load) (h : l1.Perm l2) :
    totalMomentAbout p l1 = totalMomentAbout p l2 := by
  rw [totalMomentAbout_eq_sum, totalMomentAbout_eq_sum]
  exact (h.map fun l => resultantForce l * (resultantPos l - p)).sum_eq

lemma shearAt_perm (x : ℚ) (reactions : List (ℚ × ℚ)) (l1 l2 : List Load)
    (h : l1.Perm l2) :
    shearAt x reactions l1 = shearAt x reactions l2 := by
  unfold shearAt
  rw [foldl_add_eq (fun l => loadContrib l x) l1 0,
    foldl_add_eq (fun l => loadContrib l x) l2 0]
  rw [(h.map fun l => loadContrib l x).sum_eq]

lemma shearSeries_perm (L : ℚ) (n : ℕ) (reactions : List (ℚ × ℚ))
    (l1 l2 : List Load) (h : l1.Perm l2) :
    shearSeries L n reactions l1 = shearSeries L n reactions l2 :=
  funext fun i => shearAt_perm _ reactions l1 l2 h

lemma momentOf_perm (L : ℚ) (n : ℕ) (reactions : List (ℚ × ℚ)) (initM : ℚ)
    (l1 l2 : List Load) (h : l1.Perm l2) :
    momentOf L n reactions initM l1 = momentOf L n reactions initM l2 := by
  unfold momentOf
  rw [shearSeries_perm L n reactions l1 l2 h]

lemma slopeOf_perm (L Ev Iv : ℚ) (n : ℕ) (reactions : List (ℚ × ℚ))
    (initM : ℚ) (l1 l2 : List Load) (h : l1.Perm l2) :
    slopeOf L Ev Iv n reactions initM l1
      = slopeOf L Ev Iv n reactions initM l2 := by
  unfold slopeOf
  rw [momentOf_perm L n reactions initM l1 l2 h]

lemma deflRawOf_perm (L Ev Iv : ℚ) (n : ℕ) (reactions : List (ℚ × ℚ))
    (initM : ℚ) (l1 l2 : List Load) (h : l1.Perm l2) :
    deflRawOf L Ev Iv n reactions initM l1
      = deflRawOf L Ev Iv n reactions initM l2 := by
  unfold deflRawOf
  rw [slopeOf_perm L Ev Iv n reactions initM l1 l2 h]

lemma solveAfterReactions_perm (L Ev Iv : ℚ) (n : ℕ)
    (supports : List Support) (reactions : List (ℚ × ℚ)) (initM : ℚ)
    (ss : Bool) (l1 l2 : List Load) (h : l1.Perm l2) :
    solveAfterReactions L Ev Iv n supports l1 reactions initM ss
      = solveAfterReactions L Ev Iv n supports l2 reactions initM ss := by
  unfold solveAfterReactions
  rw [shearSeries_perm L n reactions l1 l2 h,
    momentOf_perm L n reactions initM l1 l2 h,
    slopeOf_perm L Ev Iv n reactions initM l1 l2 h,
    deflRawOf_perm L Ev Iv n reactions initM l1 l2 h]

lemma calcReactionsSS_perm (L : ℚ) (supports : List Support)
    (l1 l2 : List Load) (h : l1.Perm l2) :
    calcReactionsSS L supports l1 = calcReactionsSS L supports l2 := by
  unfold calcReactionsSS
  dsimp only
  rw [totalForce_perm l1 l2 h,
    totalMomentAbout_perm (findPinnedPos supports 0) l1 l2 h]

lemma calcReactionsCantilever_perm (supports : List Support)
    (l1 l2 : List Load) (h : l1.Perm l2) :
    calcReactionsCantilever supports l1
      = calcReactionsCantilever supports l2 := by
  unfold calcReactionsCantilever
  dsimp only
  rw [totalForce_perm l1 l2 h,
    totalMomentAbout_perm
      (supports.headD ⟨.fixed, 0⟩).position l1 l2 h]

lemma solveBeam_perm (props : Properties) (supports : List Support)
    (l1 l2 : List Load) (h : l1.Perm l2) :
    solveBeam props supports l1 = solveBeam props supports l2 := by
  unfold solveBeam
  cases getFloat props.length 10 with
  | error e => rfl
  | ok L =>
    cases getFloat props.E (200 * 10 ^ 9) with
    | error e => rfl
    | ok Ev =>
      cases getFloat props.I (83 / 10 ^ 6) with
      | error e => rfl
      | ok Iv =>
        dsimp only
        by_cases h2 : numPointsZ L < 2
        · rw [if_pos h2, if_pos h2]
        · rw [if_neg h2, if_neg h2]
          by_cases hss : sortTypes (supports.map Support.type)
              = [SupportType.pinned, SupportType.roller]
          · rw [if_pos hss, if_pos hss,
              calcReactionsSS_perm L supports l1 l2 h]
            cases calcReactionsSS L supports l2 with
            | error e => rfl
            | ok pr =>
              obtain ⟨rs, im⟩ := pr
              dsimp only
              exact solveAfterReactions_perm L Ev Iv (nOf L) supports rs im
                true l1 l2 h
          · rw [if_neg hss, if_neg hss]
            by_cases hc : sortTypes (supports.map Support.type)
                = [SupportType.fixed] ∧ supports.length = 1
            · rw [if_pos hc, if_pos hc,
                calcReactionsCantilever_perm supports l1 l2 h]
              exact solveAfterReactions_perm L Ev Iv (nOf L) supports
                (calcReactionsCantilever supports l2).1
                (calcReactionsCantilever supports l2).2 false l1 l2 h
            · rw [if_neg hc, if_neg hc]

/-- C9 (amended): the solver is linear in the loads — scaling every load's
magnitude by a common factor `c` scales every sampled shear, moment, slope
and deflection value by `c` while keeping positions and error behaviour
(in particular, doubling a point load that is the only load doubles every
sampled value) — and permuting the load list leaves the result unchanged. -/
theorem c9_linearity (props : Properties) (supports : List Support) :
    (∀ (c : ℚ) (loads : List Load),
      solveBeam props supports (loads.map (scaleLoad c))
        = Except.map (List.map (scaleSample c))
            (solveBeam props supports loads))
    ∧ ∀ (l1 l2 : List Load), l1.Perm l2 →
        solveBeam props supports l1 = solveBeam props supports l2 := by
  exact ⟨fun c loads => solveBeam_scale c props supports loads,
    fun l1 l2 h => solveBeam_perm props supports l1 l2 h⟩

theorem c9_witness :
    ([Load.point (-1) 0, Load.point (-2) (1/200)].Perm
      [Load.point (-2) (1/200), Load.point (-1) 0])
    ∧ solveBeam ⟨some (.num (1/100)), some (.num 1), some (.num 1)⟩
        [⟨.pinned, 0⟩, ⟨.roller, 1/100⟩]
        [Load.point (-1) 0, Load.point (-2) (1/200)]
        = solveBeam ⟨some (.num (1/100)), some (.num 1), some (.num 1)⟩
          [⟨.pinned, 0⟩, ⟨.roller, 1/100⟩]
          [Load.point (-2) (1/200), Load.point (-1) 0]
    ∧ solveBeam ⟨some (.num (1/100)), some (.num 1), some (.num 1)⟩
        [⟨.pinned, 0⟩, ⟨.roller, 1/100⟩]
        ([Load.point (-2) (1/200)].map (scaleLoad 2))
        = Except.map (List.map (scaleSample 2))
            (solveBeam ⟨some (.num (1/100)), some (.num 1), some (.num 1)⟩
              [⟨.pinned, 0⟩, ⟨.roller, 1/100⟩] [Load.point (-2) (1/200)]) := by
  have hp : ([Load.point (-1) 0, Load.point (-2) (1/200)].Perm
      [Load.point (-2) (1/200), Load.point (-1) 0]) :=
    List.Perm.swap (Load.point (-2) (1/200)) (Load.point (-1) 0) []
  have h := c9_linearity ⟨some (.num (1/100)), some (.num 1), some (.num 1)⟩
    [⟨.pinned, 0⟩, ⟨.roller, 1/100⟩]
  exact ⟨hp, h.2 _ _ hp, h.1 2 [Load.point (-2) (1/200)]⟩

/-- C9 counterexample: in a configuration with two point loads, doubling the
first load's magnitude (holding everything else fixed) does not double the
sampled shear — the first returned shear value is `3/2`, not twice the
original `1`. -/
theorem c9_doubling_counterexample :
    ((getOkD (solveBeam ⟨some (.num (1/100)), some (.num 1), some (.num 1)⟩
        [⟨.pinned, 0⟩, ⟨.roller, 1/100⟩]
        [.point (-2) (1/200), .point (-1) (1/200)]) []).getD 0
        default).shear
      ≠ 2 * ((getOkD (solveBeam ⟨some (.num (1/100)), some (.num 1),
          some (.num 1)⟩ [⟨.pinned, 0⟩, ⟨.roller, 1/100⟩]
          [.point (-1) (1/200), .point (-1) (1/200)]) []).getD 0
          default).shear := by
  rw [show ((getOkD (solveBeam ⟨some (.num (1/100)), some (.num 1),
      some (.num 1)⟩ [⟨.pinned, 0⟩, ⟨.roller, 1/100⟩]
      [.point (-2) (1/200), .point (-1) (1/200)]) []).getD 0
      default).shear = (3/2 : ℚ) from by with_unfolding_all rfl]
  rw [show ((getOkD (solveBeam ⟨some (.num (1/100)), some (.num 1),
      some (.num 1)⟩ [⟨.pinned, 0⟩, ⟨.roller, 1/100⟩]
      [.point (-1) (1/200), .point (-1) (1/200)]) []).getD 0
      default).shear = (1 : ℚ) from by with_unfolding_all rfl]
  norm_num

end BeamAnalysis
